import Mathlib

/-!
Shallow embedding of `alvr/client_openxr/src/lib.rs` (ALVR OpenXR client):
the view-history buffer, the streaming-input sampler tick, the frame
pacer's streaming render path, swapchain lifecycle handling, stream-stop
teardown ordering, and haptics dispatch.

Modelling conventions: `Duration` timestamps are nanosecond counts (`ℕ`);
`f32` quantities are rationals (`ℚ`), with exact comparisons standing for
the float comparisons of the source; the `VecDeque` is a list whose head
is the deque's front.
-/

set_option maxRecDepth 8000

namespace AlvrClient

/-- Components of `xr::Quaternionf` (f32 fields as rationals). -/
structure Quaternionf where
  x : ℚ
  y : ℚ
  z : ℚ
  w : ℚ
deriving DecidableEq

/-- Components of `xr::Vector3f`. -/
structure Vector3f where
  x : ℚ
  y : ℚ
  z : ℚ
deriving DecidableEq

/-- `xr::Posef`: orientation plus position. -/
structure Posef where
  orientation : Quaternionf
  position : Vector3f
deriving DecidableEq

/-- `xr::Fovf`: four half-angles in radians. -/
structure Fovf where
  angle_left : ℚ
  angle_right : ℚ
  angle_up : ℚ
  angle_down : ℚ
deriving DecidableEq

/-- `xr::View`: pose and field of view of one eye. -/
structure View where
  pose : Posef
  fov : Fovf
deriving DecidableEq

/-- The stereo pair returned by `locate_views(PRIMARY_STEREO, ..)`:
`views[0]` (left) and `views[1]` (right). -/
structure Views where
  left : View
  right : View
deriving DecidableEq

/-- `HistoryView`, lib.rs lines 37-40: a predicted target timestamp with
the view set located for it. -/
structure HistoryView where
  timestamp : ℕ
  views : Views
deriving DecidableEq

/-- History insertion, lib.rs lines 254-264: `push_back` the new entry,
then `pop_front` once when the length exceeds 360. -/
def pushHistory (h : List HistoryView) (e : HistoryView) : List HistoryView :=
  let h2 := h ++ [e]
  if 360 < h2.length then h2.tail else h2

/-- History lookup, lib.rs lines 804-809: iterate over the whole deque
front to back, overwriting the candidate on every timestamp match (no
early exit), so the last matching entry wins. -/
def lookupHistory (h : List HistoryView) (timestamp : ℕ) : Option Views :=
  h.foldl
    (fun acc history_frame =>
      if history_frame.timestamp = timestamp then some history_frame.views else acc)
    none

/-- View selection for a streaming frame, lib.rs lines 804-816: a lookup
hit both drives the submitted projection layer and replaces
`last_good_views`; a miss reuses `last_good_views` unchanged. Returns
(views used for the layer, new value of `last_good_views`). -/
def selectViews (history : List HistoryView) (timestamp : ℕ) (last_good_views : Views) :
    Views × Views :=
  match lookupHistory history timestamp with
  | some views => (views, views)
  | none => (last_good_views, last_good_views)

/-- `default_view`, lib.rs lines 455-471: identity orientation, zero
position, symmetric ±0.1 rad field of view. -/
def default_view : View :=
  { pose := { orientation := ⟨0, 0, 0, 1⟩, position := ⟨0, 0, 0⟩ },
    fov := { angle_left := -(1/10), angle_right := 1/10, angle_up := 1/10,
             angle_down := -(1/10) } }

/-- Initial value of `last_good_views`, lib.rs line 473. -/
def initialLastGoodViews : Views := ⟨default_view, default_view⟩

/-- Iterated streaming frames of the render loop: each frame sees a
history snapshot and a decoded (or fallback) timestamp; `selectViews`
chooses the submitted view set and the next `last_good_views`. Returns
the view set submitted for each frame in order. -/
def runStreamingFrames (frames : List (List HistoryView × ℕ)) (g : Views) : List Views :=
  match frames with
  | [] => []
  | (h, t) :: rest =>
    let r := selectViews h t g
    r.1 :: runStreamingFrames rest r.2

section HistoryLemmas

/-- Folding the lookup step over an appended entry: the new back entry
overrides the accumulated candidate exactly when it matches. -/
lemma lookupHistory_append (h : List HistoryView) (e : HistoryView) (T : ℕ) :
    lookupHistory (h ++ [e]) T =
      if e.timestamp = T then some e.views else lookupHistory h T := by
  simp [lookupHistory, List.foldl_append]

lemma lookup_foldl_none_iff (T : ℕ) :
    ∀ (h : List HistoryView) (acc : Option Views),
      h.foldl
        (fun acc history_frame =>
          if history_frame.timestamp = T then some history_frame.views else acc)
        acc = none ↔ (acc = none ∧ ∀ e ∈ h, e.timestamp ≠ T) := by
  intro h
  induction h with
  | nil => simp
  | cons e rest ih =>
    intro acc
    by_cases he : e.timestamp = T
    · simp [List.foldl_cons, he, ih]
    · simp only [List.foldl_cons, he, if_neg he, ih]
      constructor
      · rintro ⟨h1, h2⟩
        refine ⟨h1, fun e2 hmem => ?_⟩
        rcases List.mem_cons.mp hmem with hh | hm
        · exact hh ▸ he
        · exact h2 e2 hm
      · rintro ⟨h1, h2⟩
        exact ⟨h1, fun e2 hmem => h2 e2 (List.mem_cons_of_mem _ hmem)⟩

/-- `lookupHistory` misses exactly when no entry's timestamp equals the
queried one. -/
lemma lookupHistory_eq_none_iff (h : List HistoryView) (T : ℕ) :
    lookupHistory h T = none ↔ ∀ e ∈ h, e.timestamp ≠ T := by
  simpa using lookup_foldl_none_iff T h none

lemma lookup_foldl_some (T : ℕ) :
    ∀ (h : List HistoryView) (acc : Option Views) (v : Views),
      h.foldl
        (fun acc history_frame =>
          if history_frame.timestamp = T then some history_frame.views else acc)
        acc = some v →
      acc = some v ∨ ∃ e ∈ h, e.timestamp = T ∧ e.views = v := by
  intro h
  induction h with
  | nil => simp
  | cons e rest ih =>
    intro acc v hfold
    rcases ih _ v hfold with hacc | ⟨e2, hmem, hts, hviews⟩
    · by_cases he : e.timestamp = T
      · simp only [he, if_pos rfl] at hacc
        exact Or.inr ⟨e, List.mem_cons_self e rest, he, Option.some.injEq _ _ ▸ hacc.symm ▸ rfl⟩
      · simp only [if_neg he] at hacc
        exact Or.inl hacc
    · exact Or.inr ⟨e2, List.mem_cons_of_mem _ hmem, hts, hviews⟩

/-- A lookup hit returns the view set of some matching entry. -/
lemma lookupHistory_some_mem (h : List HistoryView) (T : ℕ) (v : Views)
    (hsome : lookupHistory h T = some v) :
    ∃ e ∈ h, e.timestamp = T ∧ e.views = v := by
  rcases lookup_foldl_some T h none v hsome with hacc | hmem
  · exact absurd hacc (by simp)
  · exact hmem

/-- Folding the lookup step over entries that never match leaves the
accumulated candidate unchanged. -/
lemma lookup_foldl_no_match (T : ℕ) :
    ∀ (h : List HistoryView) (acc : Option Views), (∀ e ∈ h, e.timestamp ≠ T) →
      h.foldl
        (fun acc history_frame =>
          if history_frame.timestamp = T then some history_frame.views else acc)
        acc = acc := by
  intro h
  induction h with
  | nil => simp
  | cons e rest ih =>
    intro acc hno
    have he : e.timestamp ≠ T := hno e (List.mem_cons_self e rest)
    simp only [List.foldl_cons, if_neg he]
    exact ih acc fun e2 hmem => hno e2 (List.mem_cons_of_mem _ hmem)

end HistoryLemmas

/-- A concrete stereo view set used as sample data in witnesses. -/
def sampleViewsA : Views :=
  ⟨⟨⟨⟨0, 0, 0, 1⟩, ⟨1, 2, 3⟩⟩, ⟨-(1/2), 1/2, 1/2, -(1/2)⟩⟩,
   ⟨⟨⟨0, 0, 0, 1⟩, ⟨4, 5, 6⟩⟩, ⟨-(1/2), 1/2, 1/2, -(1/2)⟩⟩⟩

/-- A second concrete stereo view set, distinct from `sampleViewsA`. -/
def sampleViewsB : Views :=
  ⟨⟨⟨⟨0, 0, 0, 1⟩, ⟨7, 8, 9⟩⟩, ⟨-(1/2), 1/2, 1/2, -(1/2)⟩⟩,
   ⟨⟨⟨0, 0, 0, 1⟩, ⟨10, 11, 12⟩⟩, ⟨-(1/2), 1/2, 1/2, -(1/2)⟩⟩⟩

/-- C1: for a displayed streaming frame (real or fallback) with timestamp
T, a history entry whose timestamp equals T supplies the view set for
the submitted projection layer and becomes the new `last_good_views`;
with no matching entry, the previous `last_good_views` is reused
unchanged (regardless of what else the history holds). -/
theorem streaming_frame_view_selection (h : List HistoryView) (T : ℕ) (g : Views) :
    ((∀ e ∈ h, e.timestamp ≠ T) → selectViews h T g = (g, g)) ∧
    ((∃ e ∈ h, e.timestamp = T) →
      ∃ e ∈ h, e.timestamp = T ∧ selectViews h T g = (e.views, e.views)) := by
  constructor
  · intro hno
    have hnone : lookupHistory h T = none := (lookupHistory_eq_none_iff h T).mpr hno
    simp [selectViews, hnone]
  · rintro ⟨e, hmem, hts⟩
    cases hv : lookupHistory h T with
    | none => exact absurd hts ((lookupHistory_eq_none_iff h T).mp hv e hmem)
    | some v =>
      rcases lookupHistory_some_mem h T v hv with ⟨e2, hmem2, hts2, hviews2⟩
      exact ⟨e2, hmem2, hts2, by simp [selectViews, hv, hviews2]⟩

/-- Witness for C1: with one entry at timestamp 5, a frame at timestamp 7
reuses the previous last-good views, while a frame at timestamp 5 adopts
the stored entry. -/
theorem streaming_frame_view_selection_witness :
    selectViews [⟨5, sampleViewsA⟩] 7 initialLastGoodViews =
      (initialLastGoodViews, initialLastGoodViews) ∧
    ∃ e ∈ [HistoryView.mk 5 sampleViewsA], e.timestamp = 5 ∧
      selectViews [⟨5, sampleViewsA⟩] 5 initialLastGoodViews = (e.views, e.views) :=
  ⟨(streaming_frame_view_selection [⟨5, sampleViewsA⟩] 7 initialLastGoodViews).1 (by decide),
   (streaming_frame_view_selection [⟨5, sampleViewsA⟩] 5 initialLastGoodViews).2
     ⟨⟨5, sampleViewsA⟩, by simp, rfl⟩⟩

/-- C2: the history never holds more than 360 entries; inserting into a
full buffer drops exactly the front entry, keeping the remaining FIFO
order; after the 361st insertion the evicted first entry's timestamp
(when not repeated among the survivors) is no longer found by lookup. -/
theorem history_capacity_bound (h : List HistoryView) (e : HistoryView) :
    (h.length ≤ 360 → (pushHistory h e).length ≤ 360) ∧
    (h.length = 360 → pushHistory h e = h.tail ++ [e]) ∧
    (∀ f rest, h = f :: rest → h.length = 360 →
      (∀ e2 ∈ rest ++ [e], e2.timestamp ≠ f.timestamp) →
      lookupHistory (pushHistory h e) f.timestamp = none) := by
  have htail : h.length = 360 → pushHistory h e = h.tail ++ [e] := by
    intro hlen
    cases h with
    | nil => simp at hlen
    | cons f rest =>
      have hrest : rest.length = 359 := by
        simp only [List.length_cons] at hlen
        omega
      simp [pushHistory, hrest]
  refine ⟨?_, htail, ?_⟩
  · intro hle
    simp only [pushHistory]
    by_cases hlt : 360 < (h ++ [e]).length
    · rw [if_pos hlt]
      simp only [List.length_tail, List.length_append, List.length_cons, List.length_nil]
      omega
    · rw [if_neg hlt]
      simp only [List.length_append, List.length_cons, List.length_nil] at hlt ⊢
      omega
  · intro f rest hcons hlen hno
    rw [htail hlen, hcons]
    exact (lookupHistory_eq_none_iff _ _).mpr (by simpa [hcons] using hno)

/-- Witness for C2: a full 360-entry buffer (front entry at timestamp 0,
the rest at timestamp 1) receives a 361st entry at timestamp 361; the
result is the old tail plus the new back entry, its length is 360, and
timestamp 0 is no longer found. -/
theorem history_capacity_bound_witness :
    (pushHistory (⟨0, sampleViewsA⟩ :: List.replicate 359 ⟨1, sampleViewsA⟩)
        ⟨361, sampleViewsB⟩).length ≤ 360 ∧
    pushHistory (⟨0, sampleViewsA⟩ :: List.replicate 359 ⟨1, sampleViewsA⟩)
        ⟨361, sampleViewsB⟩ =
      List.replicate 359 ⟨1, sampleViewsA⟩ ++ [⟨361, sampleViewsB⟩] ∧
    lookupHistory
      (pushHistory (⟨0, sampleViewsA⟩ :: List.replicate 359 ⟨1, sampleViewsA⟩)
        ⟨361, sampleViewsB⟩) 0 = none := by
  have hthm := history_capacity_bound
    (⟨0, sampleViewsA⟩ :: List.replicate 359 ⟨1, sampleViewsA⟩) ⟨361, sampleViewsB⟩
  have hlen : (HistoryView.mk 0 sampleViewsA ::
      List.replicate 359 ⟨1, sampleViewsA⟩).length = 360 := by
    rw [List.length_cons, List.length_replicate]
  have hno : ∀ e2 ∈ List.replicate 359 (HistoryView.mk 1 sampleViewsA) ++
      [HistoryView.mk 361 sampleViewsB],
      e2.timestamp ≠ (HistoryView.mk 0 sampleViewsA).timestamp := by
    intro e2 hm
    rcases List.mem_append.mp hm with hm | hm
    · rcases List.eq_of_mem_replicate hm with rfl
      simp
    · rcases List.mem_singleton.mp hm with rfl
      simp
  exact ⟨hthm.1 (le_of_eq hlen), hthm.2.1 hlen,
    hthm.2.2 _ _ rfl hlen hno⟩

/-- C8: the lookup scans the whole buffer without stopping at the first
hit, so with several entries matching the frame timestamp the view set
of the last (most recently inserted) matching entry is the one adopted,
both for the submitted layer and for `last_good_views`. -/
theorem lookup_adopts_last_match (h1 h2 : List HistoryView) (e : HistoryView) (T : ℕ)
    (g : Views) (he : e.timestamp = T) (hafter : ∀ e2 ∈ h2, e2.timestamp ≠ T) :
    lookupHistory (h1 ++ e :: h2) T = some e.views ∧
    selectViews (h1 ++ e :: h2) T g = (e.views, e.views) := by
  have hl : lookupHistory (h1 ++ e :: h2) T = some e.views := by
    unfold lookupHistory
    rw [List.foldl_append, List.foldl_cons, if_pos he]
    exact lookup_foldl_no_match T h2 _ hafter
  exact ⟨hl, by simp [selectViews, hl]⟩

/-- Witness for C8: two entries share timestamp 3 with different view
sets; the later entry's views win. -/
theorem lookup_adopts_last_match_witness :
    lookupHistory [⟨3, sampleViewsA⟩, ⟨3, sampleViewsB⟩] 3 = some sampleViewsB ∧
    selectViews [⟨3, sampleViewsA⟩, ⟨3, sampleViewsB⟩] 3 initialLastGoodViews =
      (sampleViewsB, sampleViewsB) :=
  lookup_adopts_last_match [⟨3, sampleViewsA⟩] [] ⟨3, sampleViewsB⟩ 3
    initialLastGoodViews rfl (by simp)

/-- Entries that never match leave the carried last-good views in place
on every frame. -/
lemma runStreamingFrames_no_match :
    ∀ (frames : List (List HistoryView × ℕ)) (g : Views),
      (∀ p ∈ frames, ∀ e ∈ p.1, e.timestamp ≠ p.2) →
      ∀ v ∈ runStreamingFrames frames g, v = g := by
  intro frames
  induction frames with
  | nil =>
    intro g _ v hv
    simp [runStreamingFrames] at hv
  | cons p rest ih =>
    intro g hno v hv
    obtain ⟨h, t⟩ := p
    have hnone : lookupHistory h t = none := (lookupHistory_eq_none_iff h t).mpr
      (hno (h, t) (List.mem_cons_self _ _))
    have hsel : selectViews h t g = (g, g) := by simp [selectViews, hnone]
    simp only [runStreamingFrames, hsel] at hv
    rcases List.mem_cons.mp hv with rfl | hm
    · rfl
    · exact ih g (fun p hp => hno p (List.mem_cons_of_mem _ hp)) v hm

/-- C9: before any streaming frame timestamp has matched a history entry
in the session segment, every submitted projection layer uses the
built-in default view set: identity orientation, zero position, and a
symmetric ±0.1 rad field of view per eye — the initial `last_good_views`. -/
theorem default_views_until_first_match (frames : List (List HistoryView × ℕ))
    (hno : ∀ p ∈ frames, ∀ e ∈ p.1, e.timestamp ≠ p.2) :
    initialLastGoodViews =
      ⟨⟨⟨⟨0, 0, 0, 1⟩, ⟨0, 0, 0⟩⟩, ⟨-(1/10), 1/10, 1/10, -(1/10)⟩⟩,
       ⟨⟨⟨0, 0, 0, 1⟩, ⟨0, 0, 0⟩⟩, ⟨-(1/10), 1/10, 1/10, -(1/10)⟩⟩⟩ ∧
    ∀ v ∈ runStreamingFrames frames initialLastGoodViews, v = initialLastGoodViews :=
  ⟨rfl, runStreamingFrames_no_match frames initialLastGoodViews hno⟩

/-- Witness for C9: the first frame of a run whose timestamps match
nothing in their history snapshots is submitted with the default view
set. -/
theorem default_views_until_first_match_witness :
    (selectViews [⟨5, sampleViewsA⟩] 7 initialLastGoodViews).1 = initialLastGoodViews :=
  (default_views_until_first_match [([⟨5, sampleViewsA⟩], 7), ([], 9)] (by decide)).2
    (selectViews [⟨5, sampleViewsA⟩] 7 initialLastGoodViews).1
    (by simp only [runStreamingFrames]
        exact List.mem_cons_self _ _)

/-- `IPD_CHANGE_EPS`, lib.rs line 24. -/
def IPD_CHANGE_EPS : ℚ := 1/1000

/-- The two `xr::ViewStateFlags` bits checked by the sampler. -/
structure ViewStateFlags where
  positionValid : Bool
  orientationValid : Bool
deriving DecidableEq

/-- `DeviceMotion` (from `alvr_common`): pose plus velocities. -/
structure DeviceMotion where
  pose : Posef
  linear_velocity : Vector3f
  angular_velocity : Vector3f
deriving DecidableEq

def zeroVec : Vector3f := ⟨0, 0, 0⟩

def addVec (a b : Vector3f) : Vector3f := ⟨a.x + b.x, a.y + b.y, a.z + b.z⟩

def halfVec (a : Vector3f) : Vector3f := ⟨a.x / 2, a.y / 2, a.z / 2⟩

/-- Modelled from the spec: the device-id constants come from
`alvr_common` (not among the given sources); they are distinct
identifiers whose actual values (string hashes) are irrelevant here,
modelled as distinct naturals. -/
def HEAD_ID : ℕ := 0

def LEFT_HAND_ID : ℕ := 1

def RIGHT_HAND_ID : ℕ := 2

/-- The per-tick interactions of `update_streaming_input` with the XR
runtime and the interaction module (`interaction.rs` is not among the
given sources), supplied as inputs: the results of `sync_actions`,
`xr_runtime_now`, `locate_views`, `get_hand_motion` for each hand
(`none` models an `Err` return, `some none` success with no motion
available), the presence of a face-tracking context, and
`update_buttons` (`none` models an `Err`, otherwise the number of
changed entries). `ipdReading` stands for the computed
`(views[0].position - views[1].position).length()`, an f32 square root
abstracted to an exact rational reading. -/
structure TickInput where
  syncOk : Bool
  clockNow : Option ℕ
  headPredictionOffset : ℕ
  locateResult : Option (ViewStateFlags × Views)
  ipdReading : ℚ
  leftHandMotion : Option (Option DeviceMotion)
  rightHandMotion : Option (Option DeviceMotion)
  faceTrackingOn : Bool
  buttonsResult : Option ℕ
deriving DecidableEq

/-- `StreamingInputState`, lib.rs lines 54-58 (the hand positions are
mutated inside `get_hand_motion`, outside the given sources). -/
structure StreamingInputState where
  last_ipd : ℚ
deriving DecidableEq

/-- `StreamingInputState::default()`: `last_ipd = 0.0`. -/
def defaultStreamingInputState : StreamingInputState := ⟨0⟩

/-- The outward effects of one sampler tick: the views-config (IPD)
notification with its payload, whether a history entry was pushed, the
device-motion list of the tracking packet (`none` when no packet was
sent), whether real face data rode along, and whether a buttons batch
was sent. -/
structure TickEffects where
  sentViewsConfig : Option (Fovf × Fovf × ℚ)
  pushedHistory : Bool
  sentTracking : Option (List (ℕ × DeviceMotion))
  sentFaceData : Bool
  sentButtons : Bool
deriving DecidableEq

def noEffects : TickEffects := ⟨none, false, none, false, false⟩

/-- Result of one sampler tick: effects performed, the updated state and
history, and whether the call returned `Ok` (`false` models an `Err`
return; effects performed before the failing `?` persist, as they do
through the `&mut` references in the source). -/
structure TickResult where
  effects : TickEffects
  state : StreamingInputState
  history : List HistoryView
  ok : Bool
deriving DecidableEq

/-- `update_streaming_input`, lib.rs lines 213-334, as a function of the
tick's runtime interactions. -/
def update_streaming_input (input : TickInput) (state : StreamingInputState)
    (views_history : List HistoryView) : TickResult :=
  if input.syncOk then
    match input.clockNow with
    | none => ⟨noEffects, state, views_history, false⟩
    | some now =>
      let target_timestamp := now + input.headPredictionOffset
      match input.locateResult with
      | none => ⟨noEffects, state, views_history, false⟩
      | some (view_flags, views) =>
        if !view_flags.positionValid || !view_flags.orientationValid then
          ⟨noEffects, state, views_history, true⟩
        else
          let ipd := input.ipdReading
          let sendCfg : Option (Fovf × Fovf × ℚ) :=
            if IPD_CHANGE_EPS < |state.last_ipd - ipd| then
              some (views.left.fov, views.right.fov, ipd)
            else none
          let state1 : StreamingInputState :=
            if IPD_CHANGE_EPS < |state.last_ipd - ipd| then ⟨ipd⟩ else state
          let head_position :=
            halfVec (addVec views.left.pose.position views.right.pose.position)
          let head_orientation := views.left.pose.orientation
          let history1 := pushHistory views_history ⟨target_timestamp, views⟩
          let effects1 : TickEffects :=
            { noEffects with sentViewsConfig := sendCfg, pushedHistory := true }
          match input.leftHandMotion with
          | none => ⟨effects1, state1, history1, false⟩
          | some left_hand_motion =>
            match input.rightHandMotion with
            | none => ⟨effects1, state1, history1, false⟩
            | some right_hand_motion =>
              let device_motions :=
                [(HEAD_ID,
                  DeviceMotion.mk ⟨head_orientation, head_position⟩ zeroVec zeroVec)]
                ++ (match left_hand_motion with
                    | some m => [(LEFT_HAND_ID, m)]
                    | none => [])
                ++ (match right_hand_motion with
                    | some m => [(RIGHT_HAND_ID, m)]
                    | none => [])
              let effects2 :=
                { effects1 with
                    sentTracking := some device_motions,
                    sentFaceData := input.faceTrackingOn }
              match input.buttonsResult with
              | none => ⟨effects2, state1, history1, false⟩
              | some n =>
                ⟨{ effects2 with sentButtons := if n = 0 then false else true },
                  state1, history1, true⟩
  else ⟨noEffects, state, views_history, false⟩

/-- A tick input that passes every stage, with a given derived IPD
reading: valid flags, both hands and buttons succeeding with nothing to
report. -/
def tickInputFor (r : ℚ) : TickInput :=
  { syncOk := true
    clockNow := some 0
    headPredictionOffset := 0
    locateResult := some (⟨true, true⟩, sampleViewsA)
    ipdReading := r
    leftHandMotion := some none
    rightHandMotion := some none
    faceTrackingOn := false
    buttonsResult := some 0 }

/-- Fold of sampler ticks over a list of derived IPD readings: each tick
runs `update_streaming_input` on an otherwise fixed input, counting the
emitted views-config notifications while threading state and history. -/
def runIpdTicks (rs : List ℚ) (state : StreamingInputState) (h : List HistoryView) : ℕ :=
  match rs with
  | [] => 0
  | r :: rest =>
    let res := update_streaming_input (tickInputFor r) state h
    (if res.effects.sentViewsConfig.isSome then 1 else 0) +
      runIpdTicks rest res.state res.history

/-- On a tick that reaches the IPD stage, the views-config notification
is emitted exactly when the reading moved more than the epsilon away
from the stored reference, and the reference follows suit. -/
lemma tick_ipd_core (input : TickInput) (state : StreamingInputState)
    (views_history : List HistoryView) (now : ℕ) (view_flags : ViewStateFlags) (v : Views)
    (hsync : input.syncOk = true) (hclock : input.clockNow = some now)
    (hloc : input.locateResult = some (view_flags, v))
    (hpos : view_flags.positionValid = true) (hori : view_flags.orientationValid = true) :
    ((update_streaming_input input state views_history).effects.sentViewsConfig.isSome ↔
      IPD_CHANGE_EPS < |state.last_ipd - input.ipdReading|) ∧
    (update_streaming_input input state views_history).state.last_ipd =
      (if IPD_CHANGE_EPS < |state.last_ipd - input.ipdReading| then input.ipdReading
       else state.last_ipd) := by
  by_cases hlt : IPD_CHANGE_EPS < |state.last_ipd - input.ipdReading| <;>
    cases hl : input.leftHandMotion with
  | _ =>
    simp only [update_streaming_input, hsync, hclock, hloc, hpos, hori, hl]
    cases hr : input.rightHandMotion with
    | none => simp [hlt]
    | some rm =>
      cases hb : input.buttonsResult <;> simp [hlt]

/-- Ticks whose readings all stay within the epsilon of the stored
reference emit no views-config notification and leave the reference
unchanged. -/
lemma runIpdTicks_no_emit (L : ℚ) :
    ∀ (rs : List ℚ) (h : List HistoryView), (∀ r ∈ rs, |r - L| ≤ IPD_CHANGE_EPS) →
      runIpdTicks rs ⟨L⟩ h = 0 := by
  intro rs
  induction rs with
  | nil => intro h _; rfl
  | cons r rest ih =>
    intro h hall
    have hr : |r - L| ≤ IPD_CHANGE_EPS := hall r (List.mem_cons_self _ _)
    have hnot : ¬ IPD_CHANGE_EPS < |L - r| := by
      rw [abs_sub_comm]
      exact not_lt.mpr hr
    have hcore :
        ((update_streaming_input (tickInputFor r) ⟨L⟩ h).effects.sentViewsConfig.isSome ↔
          IPD_CHANGE_EPS < |L - r|) ∧
        (update_streaming_input (tickInputFor r) ⟨L⟩ h).state.last_ipd =
          (if IPD_CHANGE_EPS < |L - r| then r else L) :=
      tick_ipd_core (tickInputFor r) ⟨L⟩ h 0 ⟨true, true⟩ sampleViewsA rfl rfl rfl rfl rfl
    have hnotTrue :
        ¬ ((update_streaming_input (tickInputFor r) ⟨L⟩ h).effects.sentViewsConfig.isSome
          = true) := fun htrue => hnot (hcore.1.mp htrue)
    have hne : (update_streaming_input (tickInputFor r) ⟨L⟩ h).effects.sentViewsConfig.isSome
        = false := Bool.eq_false_iff.mpr hnotTrue
    have hstate : (update_streaming_input (tickInputFor r) ⟨L⟩ h).state = ⟨L⟩ := by
      have h2 := hcore.2
      rw [if_neg hnot] at h2
      cases hs : (update_streaming_input (tickInputFor r) ⟨L⟩ h).state with
      | mk x =>
        rw [hs] at h2
        rw [show x = L from h2]
    simp only [runIpdTicks, hne, hstate]
    simp only [Bool.false_eq_true, if_false, zero_add]
    exact ih _ fun r2 hm => hall r2 (List.mem_cons_of_mem _ hm)

/-- C5: a views-config (IPD) notification is emitted on a sampler tick
iff the derived inter-eye distance differs from the stored reference by
strictly more than 0.001; emission updates the reference and
non-emission leaves it, so from the default state a run of readings all
within 0.001 of its first reading (itself more than 0.001 away from the
initial 0) emits exactly one notification. -/
theorem ipd_notification_dedup (input : TickInput) (state : StreamingInputState)
    (views_history : List HistoryView) (now : ℕ) (view_flags : ViewStateFlags) (v : Views)
    (hsync : input.syncOk = true) (hclock : input.clockNow = some now)
    (hloc : input.locateResult = some (view_flags, v))
    (hpos : view_flags.positionValid = true) (hori : view_flags.orientationValid = true) :
    ((update_streaming_input input state views_history).effects.sentViewsConfig.isSome ↔
      IPD_CHANGE_EPS < |state.last_ipd - input.ipdReading|) ∧
    (IPD_CHANGE_EPS < |state.last_ipd - input.ipdReading| →
      (update_streaming_input input state views_history).state.last_ipd = input.ipdReading) ∧
    (¬ IPD_CHANGE_EPS < |state.last_ipd - input.ipdReading| →
      (update_streaming_input input state views_history).state.last_ipd = state.last_ipd) ∧
    (∀ (r1 : ℚ) (rest : List ℚ) (h : List HistoryView), IPD_CHANGE_EPS < |r1| →
      (∀ r ∈ r1 :: rest, |r - r1| ≤ IPD_CHANGE_EPS) →
      runIpdTicks (r1 :: rest) defaultStreamingInputState h = 1) := by
  have hcore := tick_ipd_core input state views_history now view_flags v
    hsync hclock hloc hpos hori
  refine ⟨hcore.1, ?_, ?_, ?_⟩
  · intro hlt
    rw [hcore.2, if_pos hlt]
  · intro hlt
    rw [hcore.2, if_neg hlt]
  · intro r1 rest h hfirst hall
    have hcore1 :
        ((update_streaming_input (tickInputFor r1) defaultStreamingInputState
            h).effects.sentViewsConfig.isSome ↔
          IPD_CHANGE_EPS < |(0 : ℚ) - r1|) ∧
        (update_streaming_input (tickInputFor r1) defaultStreamingInputState
            h).state.last_ipd =
          (if IPD_CHANGE_EPS < |(0 : ℚ) - r1| then r1 else 0) :=
      tick_ipd_core (tickInputFor r1) defaultStreamingInputState h 0
        ⟨true, true⟩ sampleViewsA rfl rfl rfl rfl rfl
    rw [zero_sub, abs_neg] at hcore1
    have hsomeT :
        (update_streaming_input (tickInputFor r1) defaultStreamingInputState
            h).effects.sentViewsConfig.isSome = true := hcore1.1.mpr hfirst
    have hstate :
        (update_streaming_input (tickInputFor r1) defaultStreamingInputState h).state
          = ⟨r1⟩ := by
      have h2 := hcore1.2
      rw [if_pos hfirst] at h2
      cases hs : (update_streaming_input (tickInputFor r1) defaultStreamingInputState
          h).state with
      | mk x =>
        rw [hs] at h2
        rw [show x = r1 from h2]
    simp only [runIpdTicks, hsomeT, hstate, if_true]
    rw [runIpdTicks_no_emit r1 rest _
      (fun r2 hm => hall r2 (List.mem_cons_of_mem _ hm))]

/-- Witness for C5: from the default state, the reading sequence
0.063, 0.0635, 0.0628 (all within 0.001 of the first) emits exactly one
views-config notification. -/
theorem ipd_notification_dedup_witness :
    runIpdTicks [63/1000, 635/10000, 628/10000] defaultStreamingInputState [] = 1 := by
  have hthm := ipd_notification_dedup (tickInputFor (63/1000)) defaultStreamingInputState []
    0 ⟨true, true⟩ sampleViewsA rfl rfl rfl rfl rfl
  have habs1 : |(63/1000 : ℚ)| = 63/1000 := abs_of_pos (by norm_num)
  have habs2 : |(63/1000 : ℚ) - 63/1000| = 0 := by rw [sub_self, abs_zero]
  have habs3 : |(635/10000 : ℚ) - 63/1000| = 1/2000 := by
    rw [show (635/10000 : ℚ) - 63/1000 = 1/2000 by norm_num]
    exact abs_of_pos (by norm_num)
  have habs4 : |(628/10000 : ℚ) - 63/1000| = 1/5000 := by
    rw [show (628/10000 : ℚ) - 63/1000 = -(1/5000) by norm_num, abs_neg]
    exact abs_of_pos (by norm_num)
  refine hthm.2.2.2 (63/1000) [635/10000, 628/10000] [] ?_ ?_
  · rw [habs1]
    norm_num [IPD_CHANGE_EPS]
  · intro r hm
    rcases List.mem_cons.mp hm with rfl | hm
    · rw [habs2]
      norm_num [IPD_CHANGE_EPS]
    · rcases List.mem_cons.mp hm with rfl | hm
      · rw [habs3]
        norm_num [IPD_CHANGE_EPS]
      · rcases List.mem_singleton.mp hm with rfl
        rw [habs4]
        norm_num [IPD_CHANGE_EPS]

/-- A concrete tick input whose located views have the position-valid
flag unset while a left-hand motion is available and face tracking is
on. -/
def invalidFlagsInput : TickInput :=
  { syncOk := true
    clockNow := some 0
    headPredictionOffset := 0
    locateResult := some (⟨false, true⟩, sampleViewsA)
    ipdReading := 63/1000
    leftHandMotion := some (some ⟨⟨⟨0, 0, 0, 1⟩, ⟨1, 1, 1⟩⟩, ⟨0, 0, 0⟩, ⟨0, 0, 0⟩⟩)
    rightHandMotion := some none
    faceTrackingOn := true
    buttonsResult := some 0 }

/-- Counterexample to C3 as stated: on a tick whose validity flags are
unset the code abandons the whole tick, so hand and face samples are NOT
still attempted — no tracking packet is emitted at all, refuting the
universally quantified claim at `invalidFlagsInput`. -/
theorem validity_gating_counterexample :
    ¬ (∀ (input : TickInput) (state : StreamingInputState)
        (views_history : List HistoryView)
        (now : ℕ) (view_flags : ViewStateFlags) (v : Views),
        input.syncOk = true → input.clockNow = some now →
        input.locateResult = some (view_flags, v) →
        view_flags.positionValid = false ∨ view_flags.orientationValid = false →
        (update_streaming_input input state views_history).effects.sentViewsConfig = none ∧
        (update_streaming_input input state views_history).effects.sentTracking ≠ none) := by
  intro hclaim
  exact (hclaim invalidFlagsInput defaultStreamingInputState [] 0 ⟨false, true⟩ sampleViewsA
    rfl rfl rfl (Or.inl rfl)).2 rfl

/-- C3 (amended): on a sampler tick whose located view set has the
position-valid or orientation-valid flag unset, the tick is abandoned
entirely and successfully: no IPD notification, no history push, no
tracking packet (hence no head, hand or face samples), no buttons, and
the state is unchanged. -/
theorem tick_abandoned_on_invalid_views (input : TickInput) (state : StreamingInputState)
    (views_history : List HistoryView) (now : ℕ) (view_flags : ViewStateFlags) (v : Views)
    (hsync : input.syncOk = true) (hclock : input.clockNow = some now)
    (hloc : input.locateResult = some (view_flags, v))
    (hinv : view_flags.positionValid = false ∨ view_flags.orientationValid = false) :
    update_streaming_input input state views_history =
      ⟨noEffects, state, views_history, true⟩ := by
  rcases hinv with hp | ho
  · simp [update_streaming_input, hsync, hclock, hloc, hp]
  · simp [update_streaming_input, hsync, hclock, hloc, ho]

/-- Witness for the amended C3, at the concrete invalid-flags input. -/
theorem tick_abandoned_on_invalid_views_witness :
    update_streaming_input invalidFlagsInput defaultStreamingInputState [] =
      ⟨noEffects, defaultStreamingInputState, [], true⟩ :=
  tick_abandoned_on_invalid_views invalidFlagsInput defaultStreamingInputState [] 0
    ⟨false, true⟩ sampleViewsA rfl rfl rfl (Or.inl rfl)

/-- The externally visible steps of the stream-stop handlers, in source
order. `dropStreamSwapchains` is `stream_swapchains.take()` (the taken
value is dropped, destroying the runtime swapchains, at that statement);
`clearStreamingFlag` is `is_streaming.set(false)`; `joinSamplerThread`
is the `thread.join()` on the streaming input thread. -/
inductive TeardownStep where
  | dropStreamSwapchains
  | clearStreamingFlag
  | joinSamplerThread
  | pauseCore
  | pauseRenderer
  | dropLobbySwapchains
  | endSession
deriving DecidableEq

/-- The `SessionState::STOPPING` handler, lib.rs lines 516-534, as its
sequence of steps. -/
def stoppingSteps : List TeardownStep :=
  [.dropStreamSwapchains, .clearStreamingFlag, .joinSamplerThread,
   .pauseCore, .pauseRenderer, .dropLobbySwapchains, .endSession]

/-- The `ClientCoreEvent::StreamingStopped` handler, lib.rs lines
709-716, as its sequence of steps. -/
def streamingStoppedSteps : List TeardownStep :=
  [.dropStreamSwapchains, .clearStreamingFlag, .joinSamplerThread]

/-- Counterexample to C4 as stated: in neither stream-stop handler is
the sampler thread joined before the streaming swapchains are
destroyed — both handlers drop the swapchains first. -/
theorem sampler_join_not_before_swapchain_drop :
    ¬ (stoppingSteps.indexOf TeardownStep.joinSamplerThread <
         stoppingSteps.indexOf TeardownStep.dropStreamSwapchains ∧
       streamingStoppedSteps.indexOf TeardownStep.joinSamplerThread <
         streamingStoppedSteps.indexOf TeardownStep.dropStreamSwapchains) := by
  decide

/-- C4 (amended): on stream stop, both handlers first destroy the
streaming swapchains, then clear the streaming flag, then join the
sampler thread; in the `STOPPING` handler all of this streaming-only
teardown precedes pausing the core, pausing the rendering backend,
dropping the lobby swapchains, and ending the session. -/
theorem stream_stop_teardown_order :
    stoppingSteps.indexOf TeardownStep.dropStreamSwapchains <
      stoppingSteps.indexOf TeardownStep.clearStreamingFlag ∧
    stoppingSteps.indexOf TeardownStep.clearStreamingFlag <
      stoppingSteps.indexOf TeardownStep.joinSamplerThread ∧
    stoppingSteps.indexOf TeardownStep.joinSamplerThread <
      stoppingSteps.indexOf TeardownStep.pauseCore ∧
    stoppingSteps.indexOf TeardownStep.pauseCore <
      stoppingSteps.indexOf TeardownStep.pauseRenderer ∧
    stoppingSteps.indexOf TeardownStep.pauseRenderer <
      stoppingSteps.indexOf TeardownStep.dropLobbySwapchains ∧
    stoppingSteps.indexOf TeardownStep.dropLobbySwapchains <
      stoppingSteps.indexOf TeardownStep.endSession ∧
    streamingStoppedSteps =
      [TeardownStep.dropStreamSwapchains, TeardownStep.clearStreamingFlag,
       TeardownStep.joinSamplerThread] := by
  decide

/-- Swapchain-lifecycle state of one render-loop session segment: the
optional lobby and stream swapchain pairs (`lobby_swapchains`,
`stream_swapchains`) and a fresh-handle counter modelling the runtime's
allocation of new swapchains in `create_swapchain`. -/
structure SwapchainState where
  lobby : Option (ℕ × ℕ)
  stream : Option (ℕ × ℕ)
  nextHandle : ℕ
deriving DecidableEq

/-- `lobby_swapchains.get_or_insert_with(..)` in the `READY` handler,
lib.rs lines 489-494: reuse the existing pair, otherwise create two
fresh swapchains. -/
def handleReadySwapchains (s : SwapchainState) : SwapchainState :=
  match s.lobby with
  | some _ => s
  | none =>
    { s with lobby := some (s.nextHandle, s.nextHandle + 1), nextHandle := s.nextHandle + 2 }

/-- `stream_swapchains.get_or_insert_with(..)` in the `StreamingStarted`
handler, lib.rs lines 676-681. -/
def handleStreamingStartedSwapchains (s : SwapchainState) : SwapchainState :=
  match s.stream with
  | some _ => s
  | none =>
    { s with stream := some (s.nextHandle, s.nextHandle + 1), nextHandle := s.nextHandle + 2 }

/-- C7: swapchain creation is get-or-create idempotent — handling a
Ready (resp. StreamingStarted) event while the corresponding pair
already exists reuses it and changes nothing (in particular no new
handle is allocated), and repeating either handler never creates a
second set within the session segment. -/
theorem swapchain_get_or_create_idempotent (s : SwapchainState) :
    (∀ p, s.lobby = some p → handleReadySwapchains s = s) ∧
    (∀ p, s.stream = some p → handleStreamingStartedSwapchains s = s) ∧
    handleReadySwapchains (handleReadySwapchains s) = handleReadySwapchains s ∧
    handleStreamingStartedSwapchains (handleStreamingStartedSwapchains s) =
      handleStreamingStartedSwapchains s := by
  obtain ⟨lobby, stream, nextHandle⟩ := s
  refine ⟨?_, ?_, ?_, ?_⟩
  · intro p hp
    have hl : lobby = some p := hp
    simp [handleReadySwapchains, hl]
  · intro p hp
    have hs : stream = some p := hp
    simp [handleStreamingStartedSwapchains, hs]
  · cases lobby <;> simp [handleReadySwapchains]
  · cases stream <;> simp [handleStreamingStartedSwapchains]

/-- Witness for C7: from an empty segment state, a Ready event creates
the lobby pair once and a repeated Ready event changes nothing. -/
theorem swapchain_get_or_create_idempotent_witness :
    handleReadySwapchains ⟨some (0, 1), none, 2⟩ = ⟨some (0, 1), none, 2⟩ ∧
    handleReadySwapchains (handleReadySwapchains ⟨none, none, 0⟩) =
      handleReadySwapchains ⟨none, none, 0⟩ :=
  ⟨(swapchain_get_or_create_idempotent ⟨some (0, 1), none, 2⟩).1 (0, 1) rfl,
   (swapchain_get_or_create_idempotent ⟨none, none, 0⟩).2.2.1⟩

/-- The haptics application performed for a `ClientCoreEvent::Haptics`
request: which entry of `hand_sources` receives `apply_feedback`, with
the caller-supplied parameters (duration in nanoseconds, frequency and
amplitude as rationals). -/
structure HapticsApplication where
  handIndex : ℕ
  duration : ℕ
  frequency : ℚ
  amplitude : ℚ
deriving DecidableEq

/-- The `Haptics` event handler, lib.rs lines 718-740: device ids equal
to `LEFT_HAND_ID` address `hand_sources[0]`, every other id addresses
`hand_sources[1]`; the vibration is always applied. -/
def handleHaptics (device_id : ℕ) (duration : ℕ) (frequency amplitude : ℚ) :
    HapticsApplication :=
  { handIndex := if device_id = LEFT_HAND_ID then 0 else 1
    duration := duration
    frequency := frequency
    amplitude := amplitude }

/-- C10: a haptics request with `device_id = LEFT_HAND_ID` is applied to
the left hand's vibration action; a request with any other device id
(such as `HEAD_ID`, which denotes no hand) is applied to the right
hand's vibration action; the parameters pass through unchanged and no
request is rejected. -/
theorem haptics_device_dispatch (device_id duration : ℕ) (frequency amplitude : ℚ) :
    (device_id = LEFT_HAND_ID →
      (handleHaptics device_id duration frequency amplitude).handIndex = 0) ∧
    (device_id ≠ LEFT_HAND_ID →
      (handleHaptics device_id duration frequency amplitude).handIndex = 1) ∧
    (handleHaptics device_id duration frequency amplitude).duration = duration ∧
    (handleHaptics device_id duration frequency amplitude).frequency = frequency ∧
    (handleHaptics device_id duration frequency amplitude).amplitude = amplitude := by
  refine ⟨?_, ?_, rfl, rfl, rfl⟩
  · intro hid
    simp [handleHaptics, hid]
  · intro hid
    simp [handleHaptics, hid]

/-- Witness for C10: the left-hand id goes to hand source 0 and
`HEAD_ID` (no hand) goes to hand source 1. -/
theorem haptics_device_dispatch_witness :
    (handleHaptics LEFT_HAND_ID 1000 (160 : ℚ) (1/2)).handIndex = 0 ∧
    (handleHaptics HEAD_ID 1000 (160 : ℚ) (1/2)).handIndex = 1 :=
  ⟨(haptics_device_dispatch LEFT_HAND_ID 1000 160 (1/2)).1 rfl,
   (haptics_device_dispatch HEAD_ID 1000 160 (1/2)).2.1 (by decide)⟩

/-- `DECODER_MAX_TIMEOUT_MULTIPLIER`, lib.rs line 25. -/
def DECODER_MAX_TIMEOUT_MULTIPLIER : ℚ := 8/10

/-- A decoded frame as obtained from `get_frame()`: its target timestamp
and whether its hardware buffer pointer is null. -/
structure StreamFrame where
  timestamp : ℕ
  bufferIsNull : Bool
deriving DecidableEq

/-- The scheduling-relevant actions the pacer can take between polls. -/
inductive PacerAction where
  | pollFrame
  | yieldNow
  | sleepMs (ms : ℕ)
deriving DecidableEq

/-- Outcome of the decoder poll loop: the obtained frame (if any), the
number of `get_frame()` calls, and the trace of scheduling actions. -/
structure PollOutcome where
  result : Option StreamFrame
  polls : ℕ
  trace : List PacerAction
deriving DecidableEq

/-- `frame_poll_deadline`, lib.rs lines 787-790: the clock reading at
loop entry plus 0.8 × frame interval. Time is an abstract rational. -/
def framePollDeadline (start frame_interval : ℚ) : ℚ :=
  start + frame_interval * DECODER_MAX_TIMEOUT_MULTIPLIER

/-- The decoder poll loop, lib.rs lines 791-795: while no frame has been
obtained and `Instant::now()` reads below the deadline, poll
`get_frame()` and `thread::yield_now()` (never sleep). `clock i` is the
clock reading checked before the i-th poll and `frames i` that poll's
result; `fuel` bounds the recursion and is irrelevant once the clock
has passed the deadline (see `decoder_poll_deadline`). -/
def pollLoop (clock : ℕ → ℚ) (frames : ℕ → Option StreamFrame) (deadline : ℚ) :
    ℕ → ℕ → PollOutcome
  | 0, _ => ⟨none, 0, []⟩
  | fuel + 1, i =>
    if clock i < deadline then
      match frames i with
      | some f => ⟨some f, 1, [.pollFrame, .yieldNow]⟩
      | none =>
        let rest := pollLoop clock frames deadline fuel (i + 1)
        ⟨rest.result, rest.polls + 1, .pollFrame :: .yieldNow :: rest.trace⟩
    else ⟨none, 0, []⟩

/-- lib.rs lines 797-802: on poll timeout the streaming path falls back
to the current predicted display time (`vsync_time`) with a null
buffer. -/
def resolveFrame (res : Option StreamFrame) (vsync_time : ℕ) : StreamFrame :=
  match res with
  | some pair => pair
  | none => ⟨vsync_time, true⟩

lemma pollLoop_stable (clock : ℕ → ℚ) (frames : ℕ → Option StreamFrame) (deadline : ℚ) :
    ∀ (k i fuel1 fuel2 : ℕ), deadline ≤ clock (i + k) → k + 1 ≤ fuel1 → k + 1 ≤ fuel2 →
      pollLoop clock frames deadline fuel1 i = pollLoop clock frames deadline fuel2 i := by
  intro k
  induction k with
  | zero =>
    intro i fuel1 fuel2 hdead h1 h2
    obtain ⟨a, rfl⟩ : ∃ a, fuel1 = a + 1 :=
      ⟨fuel1 - 1, by omega⟩
    obtain ⟨b, rfl⟩ : ∃ b, fuel2 = b + 1 :=
      ⟨fuel2 - 1, by omega⟩
    rw [Nat.add_zero] at hdead
    simp [pollLoop, not_lt.mpr hdead]
  | succ k ih =>
    intro i fuel1 fuel2 hdead h1 h2
    obtain ⟨a, rfl⟩ : ∃ a, fuel1 = a + 1 := ⟨fuel1 - 1, by omega⟩
    obtain ⟨b, rfl⟩ : ∃ b, fuel2 = b + 1 := ⟨fuel2 - 1, by omega⟩
    by_cases hc : clock i < deadline
    · simp only [pollLoop, if_pos hc]
      cases frames i with
      | some f => rfl
      | none =>
        have hdead2 : deadline ≤ clock ((i + 1) + k) := by
          have harith : (i + 1) + k = i + (k + 1) := by omega
          rw [harith]
          exact hdead
        rw [ih (i + 1) a b hdead2 (by omega) (by omega)]
    · simp [pollLoop, hc]

lemma pollLoop_polls_le (clock : ℕ → ℚ) (frames : ℕ → Option StreamFrame) (deadline : ℚ) :
    ∀ (k i fuel : ℕ), deadline ≤ clock (i + k) →
      (pollLoop clock frames deadline fuel i).polls ≤ k := by
  intro k
  induction k with
  | zero =>
    intro i fuel hdead
    cases fuel with
    | zero => simp [pollLoop]
    | succ a =>
      rw [Nat.add_zero] at hdead
      simp [pollLoop, not_lt.mpr hdead]
  | succ k ih =>
    intro i fuel hdead
    cases fuel with
    | zero => simp [pollLoop]
    | succ a =>
      by_cases hc : clock i < deadline
      · simp only [pollLoop, if_pos hc]
        cases frames i with
        | some f => simp
        | none =>
          have hdead2 : deadline ≤ clock ((i + 1) + k) := by
            have harith : (i + 1) + k = i + (k + 1) := by omega
            rw [harith]
            exact hdead
          have := ih (i + 1) a hdead2
          simp only
          omega
      · simp [pollLoop, hc]

lemma pollLoop_polls_before_deadline (clock : ℕ → ℚ) (frames : ℕ → Option StreamFrame)
    (deadline : ℚ) :
    ∀ (fuel i j : ℕ), j < (pollLoop clock frames deadline fuel i).polls →
      clock (i + j) < deadline := by
  intro fuel
  induction fuel with
  | zero =>
    intro i j hj
    simp [pollLoop] at hj
  | succ a ih =>
    intro i j hj
    by_cases hc : clock i < deadline
    · simp only [pollLoop, if_pos hc] at hj
      cases hf : frames i with
      | some f =>
        rw [hf] at hj
        simp at hj
        subst hj
        rw [Nat.add_zero]
        exact hc
      | none =>
        rw [hf] at hj
        simp only at hj
        cases j with
        | zero =>
          rw [Nat.add_zero]
          exact hc
        | succ j2 =>
          have hj2 : j2 < (pollLoop clock frames deadline a (i + 1)).polls := by omega
          have := ih (i + 1) j2 hj2
          have harith : (i + 1) + j2 = i + (j2 + 1) := by omega
          rw [harith] at this
          exact this
    · simp [pollLoop, hc] at hj

lemma pollLoop_no_sleep (clock : ℕ → ℚ) (frames : ℕ → Option StreamFrame) (deadline : ℚ) :
    ∀ (fuel i : ℕ), ∀ a ∈ (pollLoop clock frames deadline fuel i).trace,
      a = PacerAction.pollFrame ∨ a = PacerAction.yieldNow := by
  intro fuel
  induction fuel with
  | zero =>
    intro i a ha
    simp [pollLoop] at ha
  | succ n ih =>
    intro i a ha
    by_cases hc : clock i < deadline
    · simp only [pollLoop, if_pos hc] at ha
      cases hf : frames i with
      | some f =>
        rw [hf] at ha
        simp at ha
        rcases ha with rfl | rfl
        · exact Or.inl rfl
        · exact Or.inr rfl
      | none =>
        rw [hf] at ha
        simp only [List.mem_cons] at ha
        rcases ha with rfl | rfl | hm
        · exact Or.inl rfl
        · exact Or.inr rfl
        · exact ih (i + 1) a hm
    · simp [pollLoop, hc] at ha

lemma pollLoop_all_none (clock : ℕ → ℚ) (frames : ℕ → Option StreamFrame) (deadline : ℚ)
    (hnone : ∀ n, frames n = none) :
    ∀ (fuel i : ℕ), (pollLoop clock frames deadline fuel i).result = none := by
  intro fuel
  induction fuel with
  | zero =>
    intro i
    rfl
  | succ a ih =>
    intro i
    by_cases hc : clock i < deadline
    · simp only [pollLoop, if_pos hc, hnone i]
      exact ih (i + 1)
    · simp [pollLoop, hc]

/-- C6: the streaming-path decoder poll loop terminates within the
0.8 × frame-interval deadline even if no frame ever becomes ready — once
some clock reading `clock k` has reached the deadline, extra fuel
changes nothing, at most `k` polls are performed, and every poll happens
at a clock reading strictly below the deadline; between polls the loop
only polls and yields (never sleeps); and when no frame ever arrives the
synthesized fallback frame carries the current predicted display time
and a null buffer. -/
theorem decoder_poll_deadline (clock : ℕ → ℚ) (frames : ℕ → Option StreamFrame)
    (start frame_interval : ℚ) (vsync_time : ℕ) (k : ℕ)
    (hk : framePollDeadline start frame_interval ≤ clock k) :
    (∀ fuel, k + 1 ≤ fuel →
      pollLoop clock frames (framePollDeadline start frame_interval) fuel 0 =
        pollLoop clock frames (framePollDeadline start frame_interval) (k + 1) 0) ∧
    (∀ fuel,
      (pollLoop clock frames (framePollDeadline start frame_interval) fuel 0).polls ≤ k) ∧
    (∀ fuel j,
      j < (pollLoop clock frames (framePollDeadline start frame_interval) fuel 0).polls →
      clock j < framePollDeadline start frame_interval) ∧
    (∀ fuel, ∀ a ∈ (pollLoop clock frames (framePollDeadline start frame_interval)
        fuel 0).trace, a = PacerAction.pollFrame ∨ a = PacerAction.yieldNow) ∧
    ((∀ n, frames n = none) → ∀ fuel,
      resolveFrame
        (pollLoop clock frames (framePollDeadline start frame_interval) fuel 0).result
        vsync_time = ⟨vsync_time, true⟩) := by
  have hk0 : framePollDeadline start frame_interval ≤ clock (0 + k) := by
    rw [Nat.zero_add]
    exact hk
  refine ⟨?_, ?_, ?_, ?_, ?_⟩
  · intro fuel hfuel
    exact pollLoop_stable clock frames _ k 0 fuel (k + 1) hk0 hfuel (le_refl _)
  · intro fuel
    exact pollLoop_polls_le clock frames _ k 0 fuel hk0
  · intro fuel j hj
    have := pollLoop_polls_before_deadline clock frames _ fuel 0 j hj
    rw [Nat.zero_add] at this
    exact this
  · intro fuel
    exact pollLoop_no_sleep clock frames _ fuel 0
  · intro hnone fuel
    rw [pollLoop_all_none clock frames _ hnone fuel 0]
    rfl

/-- Witness for C6: with a clock reading `i` at the i-th poll, a 10 ms
frame interval (deadline 8) and a source that never produces a frame,
the loop polls at most 8 times and the fallback frame is the vsync time
with a null buffer. -/
theorem decoder_poll_deadline_witness :
    (pollLoop (fun i => (i : ℚ)) (fun _ => none) (framePollDeadline 0 10) 100 0).polls ≤ 8 ∧
    resolveFrame
      (pollLoop (fun i => (i : ℚ)) (fun _ => none) (framePollDeadline 0 10) 100 0).result
      77 = ⟨77, true⟩ := by
  have hk : framePollDeadline 0 10 ≤ ((8 : ℕ) : ℚ) := by
    norm_num [framePollDeadline, DECODER_MAX_TIMEOUT_MULTIPLIER]
  have hthm := decoder_poll_deadline (fun i => (i : ℚ)) (fun _ => none) 0 10 77 8 hk
  exact ⟨hthm.2.1 100, hthm.2.2.2.2 (fun n => rfl) 100⟩

end AlvrClient
